import Mathlib

/-!
Shallow embedding of the ContrAI contrée rules engine
(`contree/model/{card,deck,bid,contract,round}.py`) and verification of
the specification claims about it.

Python strings for suits and ranks are replaced by inductive types;
Python `None`-able trump suits become `Option ContractSuit`; fallible
Python code (raising exceptions) returns `Except PyError`.
-/

namespace Contree

/-- The four card suits (`Card.SUITS`). -/
inductive Suit
  | Spades
  | Hearts
  | Diamonds
  | Clubs
deriving DecidableEq, Repr

/-- The eight card ranks (`Card.RANKS`). -/
inductive Rank
  | r7
  | r8
  | r9
  | Jack
  | Queen
  | King
  | r10
  | Ace
deriving DecidableEq, Repr

/-- A playing card: suit plus rank (class `Card`). -/
structure Card where
  suit : Suit
  rank : Rank
deriving DecidableEq, Repr

/-- `Card.NORMAL_POINTS`: point value of each rank outside the trump suit. -/
def Card.NORMAL_POINTS : Rank → Nat
  | .r7 => 0
  | .r8 => 0
  | .r9 => 0
  | .Jack => 2
  | .Queen => 3
  | .King => 4
  | .r10 => 10
  | .Ace => 11

/-- `Card.TRUMP_POINTS`: point value of each rank inside the trump suit. -/
def Card.TRUMP_POINTS : Rank → Nat
  | .r7 => 0
  | .r8 => 0
  | .r9 => 14
  | .Jack => 20
  | .Queen => 3
  | .King => 4
  | .r10 => 10
  | .Ace => 11

/-- `Card.NORMAL_ORDER`: trick-taking order of each rank outside trump. -/
def Card.NORMAL_ORDER : Rank → Nat
  | .r7 => 0
  | .r8 => 1
  | .r9 => 2
  | .Jack => 3
  | .Queen => 4
  | .King => 5
  | .r10 => 6
  | .Ace => 7

/-- `Card.TRUMP_ORDER`: trick-taking order of each rank inside trump. -/
def Card.TRUMP_ORDER : Rank → Nat
  | .r7 => 0
  | .r8 => 1
  | .Queen => 2
  | .King => 3
  | .r10 => 4
  | .Ace => 5
  | .r9 => 6
  | .Jack => 7

/-- A suit as it appears in a contract (`ContractBid.VALID_SUITS`):
one of the four card suits or the string `NoTrump`. -/
inductive ContractSuit
  | suit (s : Suit)
  | NoTrump
deriving DecidableEq, Repr

/-- The Python comparison `card_suit == trump_suit` between a card's suit
string and a contract-suit string: `NoTrump` matches no card suit. -/
def suitEqContract (s : Suit) : ContractSuit → Bool
  | .suit t => decide (s = t)
  | .NoTrump => false

/-- `Card.get_points(trump_suit)`: the trump table iff `trump_suit` is
truthy (not `None`) and equals the card's suit, else the normal table. -/
def Card.get_points (c : Card) (trump : Option ContractSuit) : Nat :=
  match trump with
  | some t => if suitEqContract c.suit t then Card.TRUMP_POINTS c.rank else Card.NORMAL_POINTS c.rank
  | none => Card.NORMAL_POINTS c.rank

/-- `Card.get_order(trump_suit)`: the trump order iff `trump_suit` is
truthy and equals the card's suit, else the normal order. -/
def Card.get_order (c : Card) (trump : Option ContractSuit) : Nat :=
  match trump with
  | some t => if suitEqContract c.suit t then Card.TRUMP_ORDER c.rank else Card.NORMAL_ORDER c.rank
  | none => Card.NORMAL_ORDER c.rank

/-- `Card.SUITS` in source order. -/
def Card.SUITS : List Suit := [.Spades, .Hearts, .Diamonds, .Clubs]

/-- `Card.RANKS` in source order. -/
def Card.RANKS : List Rank := [.r7, .r8, .r9, .Jack, .Queen, .King, .r10, .Ace]

/-- `Deck.__init__`: the 32-card deck, suits outermost, ranks innermost. -/
def Deck.init_cards : List Card :=
  Card.SUITS.flatMap fun s => Card.RANKS.map fun r => ⟨s, r⟩

/-- One of the two partnerships of a game (class `Team`; the code keys
score dictionaries by the two team names). -/
inductive TeamId
  | teamA
  | teamB
deriving DecidableEq, Repr

/-- The other team (`Contract.get_defending_team` with the two teams of a game). -/
def TeamId.other : TeamId → TeamId
  | .teamA => .teamB
  | .teamB => .teamA

/-- A player, reduced to what the rules engine consults: an identity and
the back-reference `player.team` (class `Player`). -/
structure Player where
  id : Nat
  team : TeamId
deriving DecidableEq, Repr

/-- A contract value (`ContractBid.VALID_VALUES`): a numeric value or the
string `Capot` (AllTricks). -/
inductive ContractValue
  | num (n : Nat)
  | Capot
deriving DecidableEq, Repr

/-- The bid variants (`PassBid`, `ContractBid`, `DoubleBid`, `RedoubleBid`),
each carrying its authoring player. -/
inductive Bid
  | pass (player : Player)
  | contract (player : Player) (value : ContractValue) (suit : ContractSuit)
  | double (player : Player)
  | redouble (player : Player)
deriving DecidableEq, Repr

/-- The loop of `ContractBid.is_valid_after` that scans `previous_bids`
in reverse for the last contract bid, returning its value. -/
def lastContractValue (previous_bids : List Bid) : Option ContractValue :=
  previous_bids.reverse.findSome? fun b =>
    match b with
    | .contract _ v _ => some v
    | _ => none

/-- `ContractBid.is_valid_after(previous_bids)` for a candidate contract
bid of value `value`: no prior contract, or `Capot` (returned valid
unconditionally by the code), or numerically above the last contract. -/
def ContractBid.is_valid_after (value : ContractValue) (previous_bids : List Bid) : Bool :=
  match lastContractValue previous_bids with
  | none => true
  | some lastV =>
    match value with
    | .Capot => true
    | .num n =>
      match lastV with
      | .Capot => false
      | .num m => decide (n > m)

/-- A resolved contract (class `Contract`): contracting team (via
`player.team`), value, trump suit, and the double/redouble flags. -/
structure Contract where
  team : TeamId
  value : ContractValue
  suit : ContractSuit
  double : Bool
  redouble : Bool
deriving DecidableEq, Repr

/-- Python runtime errors, distinguished by kind as `exceptions.py` asks:
`InvalidPlayerCountError` and `InvalidCardCountError` are the dedicated
subclasses, `valueError` the plain `ValueError`, plus the interpreter's
`TypeError` and `AttributeError`. -/
inductive PyError
  | valueError (msg : String)
  | invalidPlayerCount (expected actual : Nat)
  | invalidCardCount (expected actual : Nat)
  | typeError (msg : String)
  | attributeError (obj attr : String)
deriving DecidableEq, Repr

/-- Whether an error is of the dedicated `InvalidPlayerCountError` kind. -/
def PyError.isInvalidPlayerCount : PyError → Bool
  | .invalidPlayerCount _ _ => true
  | _ => false

/-- Whether an error is of the dedicated `InvalidCardCountError` kind. -/
def PyError.isInvalidCardCount : PyError → Bool
  | .invalidCardCount _ _ => true
  | _ => false

/-- `Contract.get_multiplier()`: 4 if redoubled, 2 if doubled, else 1. -/
def Contract.get_multiplier (c : Contract) : Nat :=
  if c.redouble then 4 else if c.double then 2 else 1

/-- `Contract.get_base_points()`: 250 for Capot, else the numeric value. -/
def Contract.get_base_points (c : Contract) : Nat :=
  match c.value with
  | .Capot => 250
  | .num n => n

/-- `Contract.is_made(team_points)`: the code evaluates
`team_points >= self.value`; when the stored value is the string `Capot`
this comparison between `int` and `str` raises a `TypeError`. -/
def Contract.is_made (c : Contract) (team_points : Nat) : Except PyError Bool :=
  match c.value with
  | .num v => .ok (decide (team_points ≥ v))
  | .Capot => .error (.typeError ">= not supported between instances of int and str")

/-- `Deck.deal(players)`: checks `len(players) != 4` then
`len(self.cards) < 32`, raising a plain `ValueError` in both cases;
otherwise extends each hand with the slices
`cards[3i:3i+3]`, `cards[2i+12:2i+14]`, `cards[3i+20:3i+23]` and clears
the deck. Returns the new hands and the remaining deck. -/
def Deck.deal (cards : List Card) (hands : List (List Card)) :
    Except PyError (List (List Card) × List Card) :=
  if hands.length ≠ 4 then
    .error (.valueError "The number of players has to be exactly 4.")
  else if cards.length < 32 then
    .error (.valueError "Not enough cards in deck to deal. Deck should have 32 cards.")
  else
    let slice := fun (a b : Nat) => (cards.drop a).take (b - a)
    let newHands := hands.enum.map fun p =>
      p.2 ++ slice (p.1 * 3) (p.1 * 3 + 3)
          ++ slice (p.1 * 2 + 12) (p.1 * 2 + 14)
          ++ slice (p.1 * 3 + 20) (p.1 * 3 + 23)
    .ok (newHands, [])

/-- The attributes the `Deck` class defines (`deck.py`): the `cards`
field and the methods of the class body. -/
def Deck.attrNames : List String :=
  ["cards", "shuffle", "cut", "deal", "reset", "is_empty",
   "cards_remaining", "__init__", "__len__", "__str__", "__repr__"]

/-- Python attribute lookup on a `Deck` instance: succeeds exactly for
the attributes `deck.py` defines. -/
def Deck.hasattr (name : String) : Bool := Deck.attrNames.contains name

/-- The tail of `Round.play_trick`: reverses the played cards and calls
`self.deck.add_cards(trick_cards)`; the call resolves the attribute
`add_cards` on the deck first and raises `AttributeError` if absent. -/
def Round.return_trick_cards (deckCards : List Card) (plays : List (Player × Card)) :
    Except PyError (List Card) :=
  let trick_cards := (plays.map Prod.snd).reverse
  if Deck.hasattr "add_cards" then .ok (deckCards ++ trick_cards)
  else .error (.attributeError "Deck" "add_cards")

/-- One step of the running-best reduction of
`Round._determine_trick_winner`: a later play takes over iff it is trump
and the best is not, or both are trump and it has higher trump order, or
neither is trump, it follows the lead suit and has higher normal order. -/
def winnerStep (trump : Option ContractSuit) (lead_suit : Suit)
    (best : Player × Card × Bool) (pc : Player × Card) : Player × Card × Bool :=
  let card_is_trump : Bool :=
    match trump with
    | some t => suitEqContract pc.2.suit t
    | none => false
  if card_is_trump && !best.2.2 then (pc.1, pc.2, true)
  else if card_is_trump && best.2.2 then
    (if pc.2.get_order trump > best.2.1.get_order trump then (pc.1, pc.2, best.2.2) else best)
  else if !card_is_trump && !best.2.2 && decide (pc.2.suit = lead_suit) then
    (if pc.2.get_order none > best.2.1.get_order none then (pc.1, pc.2, best.2.2) else best)
  else best

/-- `Round._determine_trick_winner`: left-to-right reduction over the
plays, starting from the first play; `None` for an empty trick. -/
def Round.determine_trick_winner (trump : Option ContractSuit)
    (plays : List (Player × Card)) : Option Player :=
  match plays with
  | [] => none
  | (p0, c0) :: rest =>
    let best0 : Player × Card × Bool :=
      (p0, c0, match trump with
               | some t => suitEqContract c0.suit t
               | none => false)
    some (rest.foldl (winnerStep trump c0.suit) best0).1

/-- A trick as the round stores it: the ordered `(player, card)` plays
(`Trick.get_plays()`). -/
abbrev TrickPlays := List (Player × Card)

/-- Inner loop body of the team-points count in
`Round.calculate_round_scores`: add the card's points (with the
contract's trump suit) and record the rank when the card is trump. -/
def scanStep (trump : ContractSuit) (acc : Nat × List Rank) (pc : Player × Card) :
    Nat × List Rank :=
  (acc.1 + pc.2.get_points (some trump),
   if suitEqContract pc.2.suit trump then acc.2 ++ [pc.2.rank] else acc.2)

/-- The nested loops of `Round.calculate_round_scores` over one team's
won tricks: total card points and the list of trump ranks collected. -/
def team_scan (trump : ContractSuit) (tricks : List TrickPlays) : Nat × List Rank :=
  tricks.foldl (fun acc trick => trick.foldl (scanStep trump) acc) (0, [])

/-- The belote check of `Round.calculate_round_scores`: the trump suit is
truthy (contract suits are nonempty strings) and both `King` and `Queen`
occur among the trump ranks collected from the team's won tricks. -/
def belote_condition (trump : ContractSuit) (tricks : List TrickPlays) : Bool :=
  (team_scan trump tricks).2.contains .King && (team_scan trump tricks).2.contains .Queen

/-- One team's entry of `team_card_points` before the last-trick bonus:
card points of its won tricks plus the 20-point belote bonus. -/
def team_card_points (trump : ContractSuit) (tricks : List TrickPlays) : Nat :=
  (team_scan trump tricks).1 + (if belote_condition trump tricks then 20 else 0)

/-- The round state that `Round.calculate_round_scores` reads: the
resolved contract (or `None`), each team's won tricks (`team_tricks`),
and the winner of the final trick (`last_trick_winner`). -/
structure RoundState where
  contract : Option Contract
  team_tricks : TeamId → List TrickPlays
  last_trick_winner : Option Player

/-- The dix-de-der step: 10 points to the team of `last_trick_winner`. -/
def dix_de_der (s : RoundState) (t : TeamId) : Nat :=
  match s.last_trick_winner with
  | some w => if w.team = t then 10 else 0
  | none => 0

/-- One team's final entry of `team_card_points`: card points of won
tricks, belote bonus, and the dix-de-der bonus. -/
def round_team_points (s : RoundState) (trump : ContractSuit) (t : TeamId) : Nat :=
  team_card_points trump (s.team_tricks t) + dix_de_der s t

/-- Membership in the `belote_teams` set that
`Round.calculate_round_scores` builds. -/
def belote_teams (s : RoundState) (t : TeamId) : Bool :=
  match s.contract with
  | none => false
  | some con => belote_condition con.suit (s.team_tricks t)

/-- The `contract_made` check of `Round.calculate_round_scores`: a Capot
contract against 162 (all tricks), a numeric contract against its value,
always on the contracting team's `team_card_points` total. -/
def contract_made_check (s : RoundState) (con : Contract) : Bool :=
  match con.value with
  | .Capot => decide (round_team_points s con.suit con.team ≥ 162)
  | .num v => decide (round_team_points s con.suit con.team ≥ v)

/-- `Round.calculate_round_scores`: all zeros without a contract; with a
contract, check `contract_made`, then assign the branch formulas of the
source (the inline `250 if Capot else value` and the multiplier cascade
are `Contract.get_base_points`/`Contract.get_multiplier`). -/
def Round.calculate_round_scores (s : RoundState) : TeamId → Nat :=
  match s.contract with
  | none => fun _ => 0
  | some con =>
    if contract_made_check s con then
      if con.double || con.redouble then
        fun t => if t = con.team then 160 + con.get_base_points * con.get_multiplier
                 else round_team_points s con.suit t
      else
        fun t => if t = con.team then
                   con.get_base_points + round_team_points s con.suit con.team
                 else round_team_points s con.suit t
    else
      fun t => if t = con.team then 0
               else (160 + con.get_base_points) * con.get_multiplier

/-- Modelled from the spec: the claim's reading of the belote rule,
"that team's players played both the King and the Queen of the trump
suit during the round" — a play by a player of the team, of the trump
King resp. Queen, anywhere in the round's tricks. -/
def spec_belote_played_by_team (s : RoundState) (t : TeamId) : Bool :=
  match s.contract with
  | none => false
  | some con =>
    let allPlays := (s.team_tricks .teamA ++ s.team_tricks .teamB).flatten
    (allPlays.any fun pc =>
      decide (pc.1.team = t) && suitEqContract pc.2.suit con.suit &&
        decide (pc.2.rank = Rank.King)) &&
    (allPlays.any fun pc =>
      decide (pc.1.team = t) && suitEqContract pc.2.suit con.suit &&
        decide (pc.2.rank = Rank.Queen))

/-- The condition of the opponent-trump scan in
`Round._get_playable_cards`:
`card.suit == trump_suit and trick_player.team != player_team`. -/
def oppT (tr : ContractSuit) (player_team : TeamId) (pc : Player × Card) : Bool :=
  suitEqContract pc.2.suit tr && decide (pc.1.team ≠ player_team)

/-- The scan of `Round._get_playable_cards` for the highest trump played
so far by an opponent: keep the card with the strictly greatest trump
order among opponents' trump plays. -/
def hotStep (tr : ContractSuit) (player_team : TeamId)
    (acc : Option Card) (pc : Player × Card) : Option Card :=
  if oppT tr player_team pc then
    match acc with
    | none => some pc.2
    | some b => if pc.2.get_order (some tr) > b.get_order (some tr) then some pc.2 else acc
  else acc

/-- `Round._get_playable_cards`: empty hand gives `[]`; empty trick gives
the whole hand; follow suit when possible; free play when the leader is a
teammate or there is no trump obligation; otherwise over-trump, trump, or
discard per the source's branches. -/
def Round.get_playable_cards (hand : List Card) (player_team : TeamId)
    (plays : TrickPlays) (trump : Option ContractSuit) : List Card :=
  if hand.isEmpty then []
  else
    match plays with
    | [] => hand
    | (leader, c0) :: _ =>
      let lead_suit := c0.suit
      let lead_suit_cards := hand.filter fun c => decide (c.suit = lead_suit)
      if !lead_suit_cards.isEmpty then lead_suit_cards
      else if leader.team = player_team then hand
      else
        match trump with
        | none => hand
        | some tr =>
          if suitEqContract lead_suit tr then hand
          else
            let trump_cards := hand.filter fun c => suitEqContract c.suit tr
            let highest_opponent_trump := plays.foldl (hotStep tr player_team) none
            match highest_opponent_trump with
            | some b =>
              let higher_trumps := trump_cards.filter fun c =>
                decide (c.get_order (some tr) > b.get_order (some tr))
              if !higher_trumps.isEmpty then higher_trumps
              else if !trump_cards.isEmpty then trump_cards
              else hand
            | none =>
              if !trump_cards.isEmpty then trump_cards
              else hand

/-- The legal-card set as the claim's case analysis words it: whole hand
on an empty trick; the lead-suit cards if any are held; whole hand when
the leader is a teammate; when an actual trump suit exists and the lead
is not trump, trumps strictly above every opponent trump if any, else all
trumps, else the whole hand; whole hand otherwise. -/
def legal_cards_spec (hand : List Card) (player_team : TeamId)
    (plays : TrickPlays) (trump : Option ContractSuit) : List Card :=
  match plays with
  | [] => hand
  | (leader, c0) :: _ =>
    let lead := c0.suit
    let followers := hand.filter fun c => decide (c.suit = lead)
    if !followers.isEmpty then followers
    else if leader.team = player_team then hand
    else
      match trump with
      | some (.suit tr) =>
        if lead = tr then hand
        else
          let my_trumps := hand.filter fun c => decide (c.suit = tr)
          let opp_trumps := (plays.filter fun pc =>
            decide (pc.2.suit = tr) && decide (pc.1.team ≠ player_team)).map Prod.snd
          if opp_trumps.isEmpty then
            if !my_trumps.isEmpty then my_trumps else hand
          else
            let overtrumps := my_trumps.filter fun c =>
              opp_trumps.all fun b =>
                decide (b.get_order (some (.suit tr)) < c.get_order (some (.suit tr)))
            if !overtrumps.isEmpty then overtrumps
            else if !my_trumps.isEmpty then my_trumps
            else hand
      | _ => hand

/-- A round with an 80-Hearts contract that the contracting team loses
outright: no won tricks, no last-trick winner recorded. -/
def con_failed_ex : Contract := ⟨.teamA, .num 80, .suit .Hearts, false, false⟩

/-- Round state for `con_failed_ex`. -/
def round_failed_ex : RoundState := ⟨some con_failed_ex, fun _ => [], none⟩

/-- A doubled 80-Hearts contract held by team A. -/
def con_doubled_ex : Contract := ⟨.teamA, .num 80, .suit .Hearts, true, false⟩

/-- Tricks won by team A worth exactly 88 card points with Hearts trump
(55 + 28 + 5), containing neither the Hearts King nor Queen. -/
def tricksA_doubled_ex : List TrickPlays :=
  [[(⟨1, .teamB⟩, ⟨.Hearts, .Jack⟩), (⟨0, .teamA⟩, ⟨.Hearts, .r9⟩),
    (⟨2, .teamA⟩, ⟨.Hearts, .Ace⟩), (⟨3, .teamB⟩, ⟨.Hearts, .r10⟩)],
   [(⟨0, .teamA⟩, ⟨.Spades, .Ace⟩), (⟨1, .teamB⟩, ⟨.Spades, .r10⟩),
    (⟨2, .teamA⟩, ⟨.Spades, .King⟩), (⟨3, .teamB⟩, ⟨.Spades, .Queen⟩)],
   [(⟨0, .teamA⟩, ⟨.Spades, .Jack⟩), (⟨1, .teamB⟩, ⟨.Diamonds, .Queen⟩),
    (⟨2, .teamA⟩, ⟨.Diamonds, .r7⟩), (⟨3, .teamB⟩, ⟨.Diamonds, .r8⟩)]]

/-- Round state where team A makes the doubled 80-Hearts contract with 88
points and team B wins the last trick. -/
def round_doubled_ex : RoundState :=
  ⟨some con_doubled_ex,
   fun t => match t with
     | .teamA => tricksA_doubled_ex
     | .teamB => [],
   some ⟨3, .teamB⟩⟩

/-- An undoubled 80-Hearts contract held by team A, for the belote
scenario. -/
def con_belote_ex : Contract := ⟨.teamA, .num 80, .suit .Hearts, false, false⟩

/-- Round state in which team A won a trick holding both the Hearts King
— played by the team-B player 1 — and the Hearts Queen, played by a
team-A player. -/
def round_belote_ex : RoundState :=
  ⟨some con_belote_ex,
   fun t => match t with
     | .teamA => [[(⟨1, .teamB⟩, ⟨.Hearts, .King⟩), (⟨0, .teamA⟩, ⟨.Hearts, .Queen⟩),
                   (⟨2, .teamA⟩, ⟨.Spades, .r7⟩), (⟨3, .teamB⟩, ⟨.Spades, .r8⟩)]]
     | .teamB => [],
   some ⟨0, .teamA⟩⟩

end Contree

namespace Contree

/-- Claim C9: The normal point table sums to 30 and the trump point table to 62
over the 8 ranks, and for every choice of one trump suit the sum of
`get_points(trump_suit)` over the 32 deck cards plus the 10-point
last-trick bonus is exactly 162. -/
theorem point_tables_sum_to_162 :
    (Card.RANKS.map Card.NORMAL_POINTS).sum = 30 ∧
    (Card.RANKS.map Card.TRUMP_POINTS).sum = 62 ∧
    ∀ t : Suit,
      (Deck.init_cards.map (fun c => c.get_points (some (.suit t)))).sum + 10 = 162 := by
  refine ⟨rfl, rfl, ?_⟩
  intro t
  cases t <;> rfl

/-- Claim C10: With trump argument `None` or `NoTrump`, `get_points` and
`get_order` fall back to the normal tables for every card (no card's suit
equals `NoTrump`), and trick-winner determination under a `NoTrump`
contract coincides with the no-trump-suit reduction, so a `NoTrump`
contract scores and ranks all suits by the normal tables. -/
theorem no_trump_uses_normal_tables :
    ∀ c : Card,
      (c.get_points none = Card.NORMAL_POINTS c.rank ∧
       c.get_points (some .NoTrump) = Card.NORMAL_POINTS c.rank ∧
       c.get_order none = Card.NORMAL_ORDER c.rank ∧
       c.get_order (some .NoTrump) = Card.NORMAL_ORDER c.rank) ∧
    ∀ plays : TrickPlays,
      Round.determine_trick_winner (some .NoTrump) plays =
        Round.determine_trick_winner none plays := by
  intro c
  refine ⟨⟨rfl, rfl, rfl, rfl⟩, ?_⟩
  intro plays
  cases plays with
  | nil => rfl
  | cons pc rest =>
    obtain ⟨p0, c0⟩ := pc
    show some (rest.foldl (winnerStep (some .NoTrump) c0.suit) (p0, c0, false)).1 =
      some (rest.foldl (winnerStep none c0.suit) (p0, c0, false)).1
    have hstep : winnerStep (some ContractSuit.NoTrump) c0.suit = winnerStep none c0.suit := by
      funext best q
      rfl
    rw [hstep]

/-- Claim C3 (code bug): `Contract.is_made` evaluates
`team_points >= self.value`; for an AllTricks (Capot) contract the stored
value is the string `Capot`, so the comparison raises a `TypeError`
instead of checking `team_points ≥ 162`; for numeric contracts the
claimed comparison holds. -/
theorem is_made_capot_raises_type_error :
    Contract.is_made ⟨.teamA, .Capot, .suit .Hearts, false, false⟩ 162 =
      .error (.typeError ">= not supported between instances of int and str") ∧
    ∀ (team : TeamId) (v n : Nat) (su : ContractSuit) (d r : Bool),
      Contract.is_made ⟨team, .num v, su, d, r⟩ n = .ok (decide (n ≥ v)) :=
  ⟨rfl, fun _ _ _ _ _ _ => rfl⟩

/-- Claim C4 (code bug): `ContractBid.is_valid_after` returns `True` for
any Capot candidate, even directly after a previous Capot contract, while
its own docstring and the spec require a strictly higher bid; numeric
bids after a Capot are rejected as the claim states. -/
theorem capot_bid_valid_after_capot :
    ContractBid.is_valid_after .Capot
      [Bid.contract ⟨0, .teamA⟩ .Capot (.suit .Hearts)] = true ∧
    ContractBid.is_valid_after (.num 160)
      [Bid.contract ⟨0, .teamA⟩ .Capot (.suit .Hearts)] = false ∧
    ∀ (n m : Nat) (p : Player) (su : ContractSuit),
      ContractBid.is_valid_after (.num n) [Bid.contract p (.num m) su] = decide (n > m) :=
  ⟨rfl, rfl, fun _ _ _ _ => rfl⟩

/-- Claim C7 (code bug): `Deck.deal` raises a plain `ValueError` — not the
dedicated `InvalidPlayerCountError`/`InvalidCardCountError` kinds — when
the player count differs from 4 or fewer than 32 cards are present, and
with more than 32 cards it does not fail at all. -/
theorem deal_raises_generic_value_error :
    Deck.deal Deck.init_cards [[], [], []] =
      .error (.valueError "The number of players has to be exactly 4.") ∧
    (PyError.valueError "The number of players has to be exactly 4.").isInvalidPlayerCount
      = false ∧
    Deck.deal (Deck.init_cards.drop 1) [[], [], [], []] =
      .error (.valueError "Not enough cards in deck to deal. Deck should have 32 cards.") ∧
    (PyError.valueError
      "Not enough cards in deck to deal. Deck should have 32 cards.").isInvalidCardCount
      = false ∧
    (Deck.deal (Deck.init_cards ++ [⟨.Spades, .r7⟩]) [[], [], [], []]).isOk = true :=
  ⟨rfl, rfl, rfl, rfl, rfl⟩

/-- Claim C8 (code bug): the `Deck` class defines no `add_cards`
attribute, so the call `self.deck.add_cards(trick_cards)` at the end of
`Round.play_trick` always raises `AttributeError` instead of returning
the played cards to the deck. -/
theorem play_trick_add_cards_raises_attribute_error :
    Deck.hasattr "add_cards" = false ∧
    ∀ (deckCards : List Card) (plays : TrickPlays),
      Round.return_trick_cards deckCards plays =
        .error (.attributeError "Deck" "add_cards") :=
  ⟨rfl, fun _ _ => rfl⟩

/-- Claim C1: In every round whose contract is not reached by the
contracting team's total points, `calculate_round_scores` gives the
contracting team 0 and the defending team
`(160 + base_points) * multiplier`, with base 250 for Capot and the
numeric value otherwise, multiplier 4/2/1 for redoubled/doubled/plain. -/
theorem failed_contract_scores (s : RoundState) (con : Contract)
    (hc : s.contract = some con)
    (hf : round_team_points s con.suit con.team <
      (match con.value with | .Capot => 162 | .num v => v)) :
    Round.calculate_round_scores s con.team = 0 ∧
    Round.calculate_round_scores s con.team.other =
      (160 + con.get_base_points) * con.get_multiplier := by
  have hother : con.team.other ≠ con.team := by cases con.team <;> decide
  have hmade : contract_made_check s con = false := by
    unfold contract_made_check
    cases hv : con.value with
    | Capot =>
      rw [hv] at hf
      exact decide_eq_false (Nat.not_le.mpr hf)
    | num v =>
      rw [hv] at hf
      exact decide_eq_false (Nat.not_le.mpr hf)
  unfold Round.calculate_round_scores
  rw [hc]
  simp [hmade, hother]

/-- Witness for `failed_contract_scores`: a round with an 80-Hearts
contract, no tricks won by anyone, 0 < 80 points for the contracting
team, scoring 0 against 240. -/
theorem failed_contract_scores_witness :
    Round.calculate_round_scores round_failed_ex .teamA = 0 ∧
    Round.calculate_round_scores round_failed_ex .teamB = 240 := by
  have h := failed_contract_scores round_failed_ex con_failed_ex rfl (by decide)
  exact ⟨h.1, h.2⟩

/-- Claim C2 (counterexample): for the doubled 80-Hearts contract made
with 88 contracting-team points, the code awards the contracting team
`160 + 80*2 = 320`, not the `(80+88)*2 = 336` the claim states. -/
theorem doubled_80_made_score_counterexample :
    round_doubled_ex.contract = some con_doubled_ex ∧
    con_doubled_ex.team = .teamA ∧
    con_doubled_ex.value = .num 80 ∧ con_doubled_ex.suit = .suit .Hearts ∧
    con_doubled_ex.double = true ∧ con_doubled_ex.redouble = false ∧
    round_team_points round_doubled_ex (.suit .Hearts) .teamA = 88 ∧
    Round.calculate_round_scores round_doubled_ex .teamA = 320 ∧
    ((Round.calculate_round_scores round_doubled_ex .teamA == 336) = false) := by
  decide

/-- Claim C2 (amended): for a doubled (not redoubled) contract of 80
Hearts made with 88 contracting-team points, `calculate_round_scores`
awards the contracting team `160 + 80×2 = 320` points and the defending
team its own card-point total. -/
theorem doubled_80_made_scores (s : RoundState) (con : Contract)
    (hc : s.contract = some con) (hv : con.value = .num 80)
    (hd : con.double = true) (hr : con.redouble = false)
    (hp : round_team_points s con.suit con.team = 88) :
    Round.calculate_round_scores s con.team = 320 ∧
    Round.calculate_round_scores s con.team.other =
      round_team_points s con.suit con.team.other := by
  have hother : con.team.other ≠ con.team := by cases con.team <;> decide
  have hmade : contract_made_check s con = true := by
    unfold contract_made_check
    rw [hv, hp]
    rfl
  have hbase : con.get_base_points = 80 := by
    unfold Contract.get_base_points
    rw [hv]
  have hmult : con.get_multiplier = 2 := by
    unfold Contract.get_multiplier
    rw [hd, hr]
    rfl
  unfold Round.calculate_round_scores
  rw [hc]
  simp [hmade, hd, hother, hbase, hmult]

/-- Witness for `doubled_80_made_scores`: the concrete doubled 80-Hearts
round where team A collected 88 points; team A scores 320, team B its own
10 points (dix de der). -/
theorem doubled_80_made_scores_witness :
    Round.calculate_round_scores round_doubled_ex .teamA = 320 ∧
    Round.calculate_round_scores round_doubled_ex .teamB = 10 := by
  have h := doubled_80_made_scores round_doubled_ex con_doubled_ex rfl rfl rfl rfl (by decide)
  exact ⟨h.1, h.2⟩

/-- The inner play loop of the team-points count: total points plus the
trump ranks, explicitly as a sum and a map over a filter. -/
theorem foldl_scanStep (trump : ContractSuit) (plays : TrickPlays) :
    ∀ acc : Nat × List Rank,
      plays.foldl (scanStep trump) acc =
        (acc.1 + (plays.map fun pc => pc.2.get_points (some trump)).sum,
         acc.2 ++ (plays.filter fun pc => suitEqContract pc.2.suit trump).map
           fun pc => pc.2.rank) := by
  induction plays with
  | nil => intro acc; simp
  | cons pc rest ih =>
    intro acc
    rw [List.foldl_cons, ih]
    unfold scanStep
    cases h : suitEqContract pc.2.suit trump <;>
      simp [h, List.filter_cons, Nat.add_assoc]

/-- The team scan of `calculate_round_scores`, explicitly: card points
are the sum over all plays of the team's won tricks, and the collected
trump ranks are those plays' trump cards in order. -/
theorem team_scan_spec (trump : ContractSuit) (tricks : List TrickPlays) :
    team_scan trump tricks =
      ((tricks.flatten.map fun pc => pc.2.get_points (some trump)).sum,
       (tricks.flatten.filter fun pc => suitEqContract pc.2.suit trump).map
         fun pc => pc.2.rank) := by
  unfold team_scan
  suffices h : ∀ acc : Nat × List Rank,
      tricks.foldl (fun acc trick => trick.foldl (scanStep trump) acc) acc =
        (acc.1 + (tricks.flatten.map fun pc => pc.2.get_points (some trump)).sum,
         acc.2 ++ (tricks.flatten.filter fun pc => suitEqContract pc.2.suit trump).map
           fun pc => pc.2.rank) by
    simpa using h (0, [])
  induction tricks with
  | nil => intro acc; simp
  | cons t rest ih =>
    intro acc
    rw [List.foldl_cons, foldl_scanStep, ih]
    simp [Nat.add_assoc]

/-- Boolean equality on ranks is symmetric. -/
theorem rank_beq_comm : ∀ r₁ r₂ : Rank, (r₁ == r₂) = (r₂ == r₁) := by
  intro r₁ r₂
  cases r₁ <;> cases r₂ <;> rfl

/-- Membership of a rank in the image of a filtered list, as an `any`
over the original list. -/
theorem contains_map_filter {α : Type} (p : α → Bool) (f : α → Rank) (r : Rank) :
    ∀ l : List α, ((l.filter p).map f).contains r = l.any fun x => p x && (f x == r) := by
  intro l
  induction l with
  | nil => rfl
  | cons x rest ih =>
    rw [List.filter_cons, List.any_cons]
    cases hp : p x
    · rw [if_neg (by simp [hp])]
      simp only [Bool.false_and, Bool.false_or]
      exact ih
    · rw [if_pos (by simp [hp]), List.map_cons, List.contains_cons]
      simp only [Bool.true_and]
      rw [ih, rank_beq_comm]

/-- Claim C5 (amended): `calculate_round_scores` awards the +20 belote
bonus to a team exactly when the King and the Queen of the trump suit
both appear among the cards of the tricks that team won, regardless of
which player played them. -/
theorem belote_from_cards_in_won_tricks (s : RoundState) (con : Contract)
    (hc : s.contract = some con) (t : TeamId) :
    belote_teams s t =
      (((s.team_tricks t).flatten.any fun pc =>
          suitEqContract pc.2.suit con.suit && (pc.2.rank == Rank.King)) &&
       ((s.team_tricks t).flatten.any fun pc =>
          suitEqContract pc.2.suit con.suit && (pc.2.rank == Rank.Queen))) := by
  have h1 : belote_teams s t = belote_condition con.suit (s.team_tricks t) := by
    unfold belote_teams
    rw [hc]
  rw [h1]
  unfold belote_condition
  rw [team_scan_spec]
  dsimp only
  rw [contains_map_filter, contains_map_filter]

/-- Witness for `belote_from_cards_in_won_tricks` at the concrete belote
round. -/
theorem belote_from_cards_in_won_tricks_witness :
    belote_teams round_belote_ex .teamA =
      (((round_belote_ex.team_tricks .teamA).flatten.any fun pc =>
          suitEqContract pc.2.suit con_belote_ex.suit && (pc.2.rank == Rank.King)) &&
       ((round_belote_ex.team_tricks .teamA).flatten.any fun pc =>
          suitEqContract pc.2.suit con_belote_ex.suit && (pc.2.rank == Rank.Queen))) :=
  belote_from_cards_in_won_tricks round_belote_ex con_belote_ex rfl .teamA

/-- Claim C5 (counterexample): team A gets the belote bonus (its points
are 7 + 20 = 27) although the trump King in its won trick was played by a
team-B opponent, so team A's players did not play both belote cards. -/
theorem belote_not_played_by_team_counterexample :
    belote_teams round_belote_ex .teamA = true ∧
    team_card_points (.suit .Hearts) (round_belote_ex.team_tricks .teamA) = 27 ∧
    spec_belote_played_by_team round_belote_ex .teamA = false := by
  decide

/-- The opponent-trump scan skips plays that are not opponent trumps. -/
theorem hotStep_skip (tr : ContractSuit) (pteam : TeamId) (acc : Option Card)
    (pc : Player × Card) (h : oppT tr pteam pc = false) :
    hotStep tr pteam acc pc = acc := by
  unfold hotStep
  rw [if_neg (by simp [h])]

/-- The opponent-trump scan adopts the first opponent trump it sees. -/
theorem hotStep_none (tr : ContractSuit) (pteam : TeamId)
    (pc : Player × Card) (h : oppT tr pteam pc = true) :
    hotStep tr pteam none pc = some pc.2 := by
  unfold hotStep
  rw [if_pos (by simp [h])]

/-- The opponent-trump scan keeps the higher of the running best and a
new opponent trump. -/
theorem hotStep_some (tr : ContractSuit) (pteam : TeamId) (b : Card)
    (pc : Player × Card) (h : oppT tr pteam pc = true) :
    hotStep tr pteam (some b) pc =
      if pc.2.get_order (some tr) > b.get_order (some tr) then some pc.2 else some b := by
  unfold hotStep
  rw [if_pos (by simp [h])]

/-- The opponent-trump scan returns `None` exactly when no opponent trump
was played. -/
theorem hot_none_iff (tr : ContractSuit) (pteam : TeamId) :
    ∀ (plays : TrickPlays) (acc : Option Card),
      plays.foldl (hotStep tr pteam) acc = none ↔
        acc = none ∧ plays.filter (oppT tr pteam) = [] := by
  intro plays
  induction plays with
  | nil => intro acc; simp
  | cons pc rest ih =>
    intro acc
    rw [List.foldl_cons, ih, List.filter_cons]
    cases h : oppT tr pteam pc
    · rw [if_neg (by simp [h]), hotStep_skip tr pteam acc pc h]
    · rw [if_pos (by simp [h])]
      constructor
      · rintro ⟨hstep, -⟩
        exfalso
        cases acc with
        | none =>
          rw [hotStep_none tr pteam pc h] at hstep
          exact Option.noConfusion hstep
        | some b =>
          rw [hotStep_some tr pteam b pc h] at hstep
          by_cases hgt : pc.2.get_order (some tr) > b.get_order (some tr)
          · rw [if_pos hgt] at hstep
            exact Option.noConfusion hstep
          · rw [if_neg hgt] at hstep
            exact Option.noConfusion hstep
      · rintro ⟨-, hcons⟩
        exact absurd hcons (List.cons_ne_nil _ _)

/-- When the opponent-trump scan returns a card, that card's trump order
bounds every opponent trump played, the card itself is one of them (or
the accumulator), and it dominates the accumulator. -/
theorem hot_some_bound (tr : ContractSuit) (pteam : TeamId) :
    ∀ (plays : TrickPlays) (acc : Option Card) (b : Card),
      plays.foldl (hotStep tr pteam) acc = some b →
        (∀ pc ∈ plays.filter (oppT tr pteam),
            pc.2.get_order (some tr) ≤ b.get_order (some tr)) ∧
        (acc = some b ∨ b ∈ (plays.filter (oppT tr pteam)).map Prod.snd) ∧
        (∀ a : Card, acc = some a → a.get_order (some tr) ≤ b.get_order (some tr)) := by
  intro plays
  induction plays with
  | nil =>
    intro acc b hb
    refine ⟨by simp, Or.inl hb, ?_⟩
    intro a ha
    have hab : a = b := by
      rw [ha] at hb
      exact Option.some.inj hb
    rw [hab]
  | cons pc rest ih =>
    intro acc b hb
    rw [List.foldl_cons] at hb
    obtain ⟨ub, mem, bound⟩ := ih (hotStep tr pteam acc pc) b hb
    cases h : oppT tr pteam pc
    case false =>
      have hstep := hotStep_skip tr pteam acc pc h
      refine ⟨?_, ?_, ?_⟩
      · intro q hq
        rw [List.filter_cons, if_neg (by simp [h])] at hq
        exact ub q hq
      · rw [List.filter_cons, if_neg (by simp [h])]
        rw [hstep] at mem
        exact mem
      · intro a ha
        exact bound a (by rw [hstep, ha])
    case true =>
      refine ⟨?_, ?_, ?_⟩
      · intro q hq
        rw [List.filter_cons, if_pos (by simp [h])] at hq
        cases List.mem_cons.mp hq with
        | inl hqe =>
          rw [hqe]
          cases acc with
          | none =>
            exact bound pc.2 (hotStep_none tr pteam pc h)
          | some a0 =>
            by_cases hgt : pc.2.get_order (some tr) > a0.get_order (some tr)
            · exact bound pc.2 (by rw [hotStep_some tr pteam a0 pc h, if_pos hgt])
            · have hstep : hotStep tr pteam (some a0) pc = some a0 := by
                rw [hotStep_some tr pteam a0 pc h, if_neg hgt]
              exact Nat.le_trans (Nat.le_of_not_lt hgt) (bound a0 hstep)
        | inr hq' =>
          exact ub q hq'
      · rw [List.filter_cons, if_pos (by simp [h]), List.map_cons]
        rcases mem with hm | hm
        · cases acc with
          | none =>
            have hpb : pc.2 = b := by
              rw [hotStep_none tr pteam pc h] at hm
              exact Option.some.inj hm
            exact Or.inr (hpb ▸ List.mem_cons_self _ _)
          | some a0 =>
            by_cases hgt : pc.2.get_order (some tr) > a0.get_order (some tr)
            · have hpb : pc.2 = b := by
                rw [hotStep_some tr pteam a0 pc h, if_pos hgt] at hm
                exact Option.some.inj hm
              exact Or.inr (hpb ▸ List.mem_cons_self _ _)
            · rw [hotStep_some tr pteam a0 pc h, if_neg hgt] at hm
              exact Or.inl hm
        · exact Or.inr (List.mem_cons_of_mem _ hm)
      · intro a ha
        subst ha
        by_cases hgt : pc.2.get_order (some tr) > a.get_order (some tr)
        · have hstep : hotStep tr pteam (some a) pc = some pc.2 := by
            rw [hotStep_some tr pteam a pc h, if_pos hgt]
          exact Nat.le_trans (Nat.le_of_lt hgt) (bound pc.2 hstep)
        · have hstep : hotStep tr pteam (some a) pc = some a := by
            rw [hotStep_some tr pteam a pc h, if_neg hgt]
          exact bound a hstep

/-- Filtering a hand for trumps strictly above the scanned highest
opponent trump is the same as filtering for trumps above every opponent
trump played. -/
theorem overtrump_filter_eq (tr : ContractSuit) (pteam : TeamId)
    (plays : TrickPlays) (b : Card)
    (hb : plays.foldl (hotStep tr pteam) none = some b) (l : List Card) :
    (l.filter fun c => decide (c.get_order (some tr) > b.get_order (some tr))) =
      l.filter fun c => ((plays.filter (oppT tr pteam)).map Prod.snd).all
        fun x => decide (x.get_order (some tr) < c.get_order (some tr)) := by
  obtain ⟨ub, mem, -⟩ := hot_some_bound tr pteam plays none b hb
  have hbmem : b ∈ (plays.filter (oppT tr pteam)).map Prod.snd := by
    rcases mem with hm | hm
    · exact absurd hm (by simp)
    · exact hm
  apply List.filter_congr
  intro c _
  by_cases hp : b.get_order (some tr) < c.get_order (some tr)
  · rw [decide_eq_true hp]
    symm
    rw [List.all_eq_true]
    intro x hx
    obtain ⟨q, hq, rfl⟩ := List.mem_map.mp hx
    exact decide_eq_true (Nat.lt_of_le_of_lt (ub q hq) hp)
  · rw [decide_eq_false hp]
    symm
    refine Bool.eq_false_iff.mpr ?_
    intro hall
    rw [List.all_eq_true] at hall
    exact hp (of_decide_eq_true (hall _ hbmem))

/-- The spec-side legal-card set of an empty hand is empty. -/
theorem legal_cards_spec_nil (pteam : TeamId) (plays : TrickPlays)
    (trump : Option ContractSuit) : legal_cards_spec [] pteam plays trump = [] := by
  unfold legal_cards_spec
  cases plays with
  | nil => rfl
  | cons pc rest =>
    dsimp only
    simp only [List.filter_nil, List.isEmpty_nil, Bool.not_true]
    rw [if_neg Bool.false_ne_true]
    by_cases hpart : pc.1.team = pteam
    · rw [if_pos hpart]
    · rw [if_neg hpart]
      cases trump with
      | none => rfl
      | some cs =>
        cases cs with
        | NoTrump => rfl
        | suit tr =>
          dsimp only
          by_cases hlead : pc.2.suit = tr
          · rw [if_pos hlead]
          · rw [if_neg hlead]
            simp

/-- Claim C6: for every acting player's hand, team, in-progress trick and
trump suit, the code's legal-card set `_get_playable_cards` equals the
spec's case analysis: whole hand on an empty trick; lead-suit cards if
held; whole hand when the leader is a teammate; otherwise with a real
trump suit and a non-trump lead, trumps above every opponent trump if
any, else all trumps, else the whole hand. -/
theorem get_playable_cards_eq_spec :
    ∀ (hand : List Card) (pteam : TeamId) (plays : TrickPlays)
      (trump : Option ContractSuit),
      Round.get_playable_cards hand pteam plays trump =
        legal_cards_spec hand pteam plays trump := by
  intro hand pteam plays trump
  by_cases hh : hand = []
  · subst hh
    rw [legal_cards_spec_nil]
    rfl
  · have hne : hand.isEmpty = false := by
      cases hand with
      | nil => exact absurd rfl hh
      | cons a l => rfl
    cases plays with
    | nil =>
      unfold Round.get_playable_cards legal_cards_spec
      rw [hne]
      rw [if_neg Bool.false_ne_true]
    | cons pc0 rest =>
      obtain ⟨leader, c0⟩ := pc0
      unfold Round.get_playable_cards legal_cards_spec
      rw [hne]
      rw [if_neg Bool.false_ne_true]
      dsimp only
      by_cases hfl : (hand.filter fun c => decide (c.suit = c0.suit)) = []
      · rw [hfl]
        simp only [List.isEmpty_nil, Bool.not_true]
        rw [if_neg Bool.false_ne_true, if_neg Bool.false_ne_true]
        by_cases hpart : leader.team = pteam
        · rw [if_pos hpart, if_pos hpart]
        · rw [if_neg hpart, if_neg hpart]
          cases trump with
          | none => rfl
          | some cs =>
            cases cs with
            | NoTrump =>
              dsimp only
              rw [if_neg (show ¬(suitEqContract c0.suit ContractSuit.NoTrump = true) from
                Bool.false_ne_true)]
              have htc : (hand.filter fun c =>
                  suitEqContract c.suit ContractSuit.NoTrump) = [] := by
                simp [suitEqContract]
              have hhot : ((leader, c0) :: rest).foldl
                  (hotStep ContractSuit.NoTrump pteam) none = none :=
                (hot_none_iff ContractSuit.NoTrump pteam _ none).mpr
                  ⟨rfl, by simp [oppT, suitEqContract]⟩
              rw [hhot, htc]
              simp
            | suit tr =>
              dsimp only
              by_cases hlead : c0.suit = tr
              · rw [if_pos (by simp [suitEqContract, hlead]), if_pos hlead]
              · rw [if_neg (by simp [suitEqContract, hlead]), if_neg hlead]
                have hfilter : (hand.filter fun c =>
                    suitEqContract c.suit (ContractSuit.suit tr)) =
                    hand.filter fun c => decide (c.suit = tr) := rfl
                have hopp : (((leader, c0) :: rest).filter fun pc =>
                    decide (pc.2.suit = tr) && decide (pc.1.team ≠ pteam)) =
                    ((leader, c0) :: rest).filter (oppT (ContractSuit.suit tr) pteam) := rfl
                rw [hfilter, hopp]
                cases hhot : ((leader, c0) :: rest).foldl
                    (hotStep (ContractSuit.suit tr) pteam) none with
                | none =>
                  have hfe : ((leader, c0) :: rest).filter
                      (oppT (ContractSuit.suit tr) pteam) = [] :=
                    ((hot_none_iff (ContractSuit.suit tr) pteam _ none).mp hhot).2
                  rw [hfe]
                  simp
                | some b =>
                  have hfnn : ((leader, c0) :: rest).filter
                      (oppT (ContractSuit.suit tr) pteam) ≠ [] := by
                    intro hcon
                    have hz := (hot_none_iff (ContractSuit.suit tr) pteam
                      ((leader, c0) :: rest) none).mpr ⟨rfl, hcon⟩
                    rw [hz] at hhot
                    exact Option.noConfusion hhot
                  have hie : ((((leader, c0) :: rest).filter
                      (oppT (ContractSuit.suit tr) pteam)).map Prod.snd).isEmpty = false := by
                    cases hfc : ((leader, c0) :: rest).filter
                        (oppT (ContractSuit.suit tr) pteam) with
                    | nil => exact absurd hfc hfnn
                    | cons y ys => rfl
                  rw [hie, if_neg Bool.false_ne_true]
                  rw [← overtrump_filter_eq (ContractSuit.suit tr) pteam
                    ((leader, c0) :: rest) b hhot]
      · have hflf : (hand.filter fun c => decide (c.suit = c0.suit)).isEmpty = false := by
          cases hq : hand.filter fun c => decide (c.suit = c0.suit) with
          | nil => exact absurd hq hfl
          | cons y ys => rfl
        rw [hflf]
        simp only [Bool.not_false]
        rw [if_pos trivial, if_pos trivial]

end Contree
